import Mathlib

/-!
Verification development for the hybrid course-recommendation core of the
student-portal repository.  The Python sources embedded here are
`src/ai/recommendation_engine.py`, `src/ai/embeddings_manager.py` and the
`Student` data class of `src/student.py`.

Modelling conventions:
* Python floats are modelled by `ℚ` inside the recommendation engine (all the
  arithmetic there is +, *, /, min, max and rounding on small literals) and by
  `ℝ` in the cosine-similarity routine (which divides by square roots of sums
  of squares, i.e. genuinely real arithmetic).
* Python's stable `list.sort(key=..., reverse=True)` is modelled by the stable
  insertion sort `sortByDesc` below.
* External collaborators (the OpenAI embedding provider and the ML predictor's
  `predict_performance`, which the spec designates as external collaborators)
  are parameters of the embedded functions: a similarity oracle for the
  embedding pipeline, and an `Except`-valued prediction function where
  `Except.error` models a raised exception and `Except.ok none` models a
  response dict without the `predicted_grade` key.
* Human-readable detail strings that interpolate numbers (e.g.
  `f'Predicted grade: {g:.1f}%'`) are kept as their constant prefixes; the
  constant detail strings (`'Prediction unavailable'`,
  `'No similar students found'`, `'Beginner-friendly course'`) are kept
  verbatim.  The `reasoning` text of `_generate_reasoning` and the disk /
  printing side effects (`_save_cache`, `save_recommendations`) are not
  modelled: no analysed property mentions them.
-/

namespace StudentPortal

/-- Course catalog entry, from the dicts built in
`RecommendationEngine._load_courses`.  The `description` and
`learning_objectives` fields feed only the embedding provider (an external
collaborator abstracted by a similarity oracle), so they are not carried. -/
structure Course where
  name : String
  prerequisites : List String
  difficulty : String
  category : String
deriving DecidableEq, Repr

/-- Student, from `src/student.py`.  Only the fields read by the
recommendation engine (`get_completed_courses`, `get_enrolled_courses`) are
carried; the predictive collaborator receives the whole record. -/
structure Student where
  completed_courses : List String
  enrolled_courses : List String
deriving DecidableEq, Repr

/-- The `details` entry of a recommendation dict: a plain string for the three
single-strategy scorers, and the per-strategy breakdown dict for
`_hybrid_recommendations`. -/
inductive Details where
  | text (s : String)
  | breakdown (semantic mlPrediction collaborative combined : ℚ)
deriving DecidableEq, Repr

/-- A per-strategy recommendation dict
(`{'course': ..., 'score': ..., 'strategy': ..., 'details': ...}`). -/
structure ScoreRec where
  course : Course
  score : ℚ
  strategy : String
  details : Details
deriving DecidableEq, Repr

/-- A recommendation after `recommend` has attached the confidence value. -/
structure FinalRec where
  course : Course
  score : ℚ
  strategy : String
  details : Details
  confidence : ℚ
deriving DecidableEq, Repr

/-- Stable insertion step: place `a` before the first element whose key is
less than or equal to `key a`.  Together with `sortByDesc` this is Python's
stable `list.sort(key=..., reverse=True)`. -/
def insertByDesc (key : α → ℚ) (a : α) : List α → List α
  | [] => [a]
  | b :: l => if key b ≤ key a then a :: b :: l else b :: insertByDesc key a l

/-- Stable sort, descending by `key`; ties keep their original relative
order, exactly as Python's Timsort does. -/
def sortByDesc (key : α → ℚ) : List α → List α
  | [] => []
  | a :: l => insertByDesc key a (sortByDesc key l)

/-- The fixed sample catalog returned by `RecommendationEngine._load_courses`. -/
def python_fundamentals : Course :=
  { name := "Python Fundamentals", prerequisites := [],
    difficulty := "beginner", category := "programming" }

def advanced_python : Course :=
  { name := "Advanced Python", prerequisites := ["Python Fundamentals"],
    difficulty := "intermediate", category := "programming" }

def data_structures_algorithms : Course :=
  { name := "Data Structures and Algorithms", prerequisites := ["Python Fundamentals"],
    difficulty := "intermediate", category := "computer_science" }

def ml_fundamentals : Course :=
  { name := "Machine Learning Fundamentals",
    prerequisites := ["Python Fundamentals", "Math for Machine Learning"],
    difficulty := "intermediate", category := "machine_learning" }

def deep_learning : Course :=
  { name := "Deep Learning", prerequisites := ["Machine Learning Fundamentals"],
    difficulty := "advanced", category := "machine_learning" }

def web_development_flask : Course :=
  { name := "Web Development with Flask", prerequisites := ["Python Fundamentals"],
    difficulty := "intermediate", category := "web_development" }

def data_science_python : Course :=
  { name := "Data Science with Python", prerequisites := ["Python Fundamentals"],
    difficulty := "intermediate", category := "data_science" }

def math_for_ml : Course :=
  { name := "Math for Machine Learning", prerequisites := [],
    difficulty := "intermediate", category := "mathematics" }

/-- The catalog list, in the order of `_load_courses`. -/
def load_courses : List Course :=
  [python_fundamentals, advanced_python, data_structures_algorithms,
   ml_fundamentals, deep_learning, web_development_flask,
   data_science_python, math_for_ml]

/-- Default strategy weights from `RecommendationEngine.__init__`
(`self.weights`): semantic 0.40. -/
def weights_semantic : ℚ := 40/100

/-- Default ML-prediction weight 0.35. -/
def weights_ml_prediction : ℚ := 35/100

/-- Default collaborative weight 0.25. -/
def weights_collaborative : ℚ := 25/100

/-- Eligibility of one catalog course for one student, as checked inside the
loop of `_get_available_courses`: not completed, not enrolled, and all
prerequisites completed. -/
def eligible (s : Student) (c : Course) : Prop :=
  ¬ (c.name ∈ s.completed_courses ∨ c.name ∈ s.enrolled_courses) ∧
  ∀ p ∈ c.prerequisites, p ∈ s.completed_courses

instance (s : Student) (c : Course) : Decidable (eligible s c) := by
  unfold eligible; infer_instance

/-- Model of `RecommendationEngine._get_available_courses`: keep the catalog
courses that are neither completed nor enrolled and whose prerequisites are
all completed. -/
def get_available_courses (courses : List Course) (s : Student) : List Course :=
  courses.filter fun c => decide (eligible s c)

/-- Model of the difficulty lookup
`{'beginner': 1.0, 'intermediate': 0.7, 'advanced': 0.4}.get(d, 0.5)`
in the cold-start branch of `_semantic_recommendations`. -/
def difficulty_score (d : String) : ℚ :=
  if d = "beginner" then 1
  else if d = "intermediate" then 7/10
  else if d = "advanced" then 2/5
  else 1/2

/-- Model of `EmbeddingsManager.find_similar_courses`: score every candidate
against the query with the similarity oracle `simf` (which abstracts the
rich-text embedding of both courses followed by `cosine_similarity`), sort
descending by similarity, return the first `top_k`. -/
def find_similar_courses (simf : Course → Course → ℚ) (query : Course)
    (cands : List Course) (top_k : Nat) : List (String × ℚ) :=
  (sortByDesc Prod.snd (cands.map fun c => (c.name, simf query c))).take top_k

/-- The similarity accumulation loop of `_semantic_recommendations`: for each
completed course name look up its catalog dict (`next(..., None)`, skipping
names absent from the catalog) and collect the `(name, similarity)` pairs of
`find_similar_courses` over all available courses. -/
def similarity_pairs (courses : List Course) (simf : Course → Course → ℚ)
    (completed : List String) (available : List Course) : List (String × ℚ) :=
  completed.flatMap fun comp =>
    match courses.find? fun c => c.name == comp with
    | none => []
    | some cc => find_similar_courses simf cc available available.length

/-- Average of the accumulated similarity scores for one course name, with
the `0.0` default when the name was never scored. -/
def avg_similarity (pairs : List (String × ℚ)) (name : String) : ℚ :=
  let sims := (pairs.filter fun p => p.1 == name).map Prod.snd
  if sims.isEmpty then 0 else sims.sum / sims.length

/-- Model of `RecommendationEngine._semantic_recommendations`.  With no
completed courses: score purely by difficulty (cold start).  Otherwise:
average the accumulated similarities per candidate.  Both branches sort
descending by score. -/
def semantic_recommendations (courses : List Course) (simf : Course → Course → ℚ)
    (s : Student) (available : List Course) : List ScoreRec :=
  if s.completed_courses.isEmpty then
    sortByDesc ScoreRec.score (available.map fun c =>
      { course := c, score := difficulty_score c.difficulty,
        strategy := "semantic", details := .text "Beginner-friendly course" })
  else
    let pairs := similarity_pairs courses simf s.completed_courses available
    sortByDesc ScoreRec.score (available.map fun c =>
      { course := c, score := avg_similarity pairs c.name,
        strategy := "semantic", details := .text "Similar to completed courses" })

/-- Model of `RecommendationEngine._ml_recommendations`.  The collaborator
call `self.ml_predictor.predict_performance(student, name)` is the parameter
`predict`: `Except.error` models a raised exception (caught by the
`except Exception` clause), `Except.ok g` a returned prediction dict whose
`predicted_grade` is `g.getD 70` (the `prediction.get('predicted_grade', 70.0)`
default).  The grade is normalised by 100. -/
def ml_recommendations (predict : Student → String → Except Unit (Option ℚ))
    (s : Student) (available : List Course) : List ScoreRec :=
  sortByDesc ScoreRec.score (available.map fun c =>
    match predict s c.name with
    | .ok g =>
        { course := c, score := g.getD 70 / 100,
          strategy := "ml_prediction", details := .text "Predicted grade" }
    | .error _ =>
        { course := c, score := 1/2,
          strategy := "ml_prediction", details := .text "Prediction unavailable" })

/-- Model of `RecommendationEngine._find_similar_students`: the source's body
is a TODO that always returns the empty list. -/
def find_similar_students (_s : Student) (_top_k : Nat := 10) : List Student := []

/-- Model of `RecommendationEngine._collaborative_recommendations`, including
the (dead, because `_find_similar_students` always returns `[]`) popularity
branch.  Note the early-return branch does not sort. -/
def collaborative_recommendations (s : Student) (available : List Course) :
    List ScoreRec :=
  let similar := find_similar_students s
  if similar.isEmpty then
    available.map fun c =>
      { course := c, score := 1/2,
        strategy := "collaborative", details := .text "No similar students found" }
  else
    let allCompleted := similar.flatMap Student.completed_courses
    let maxPop : Nat :=
      if allCompleted.isEmpty then 1
      else (allCompleted.map fun n => allCompleted.count n).foldl max 0
    sortByDesc ScoreRec.score (available.map fun c =>
      let pop := allCompleted.count c.name
      { course := c,
        score := if 0 < maxPop then (pop : ℚ) / (maxPop : ℚ) else 0,
        strategy := "collaborative", details := .text "similar students took this" })

/-- Score lookup through the dict comprehensions of
`_hybrid_recommendations` (`{rec['course']['name']: rec['score'] ...}` then
`.get(name, 0.0)`): the last record with the given course name wins, default
`0`. -/
def lookupScore (recs : List ScoreRec) (name : String) : ℚ :=
  match (recs.filter fun r => r.course.name == name).getLast? with
  | some r => r.score
  | none => 0

/-- The per-course weighted-combination loop of `_hybrid_recommendations`,
before the final sort. -/
def hybridScored (courses : List Course) (simf : Course → Course → ℚ)
    (predict : Student → String → Except Unit (Option ℚ))
    (s : Student) (available : List Course) : List ScoreRec :=
  let semantic_scores := semantic_recommendations courses simf s available
  let ml_scores := ml_recommendations predict s available
  let collaborative_scores := collaborative_recommendations s available
  available.map fun c =>
    let ss := lookupScore semantic_scores c.name
    let ms := lookupScore ml_scores c.name
    let cs := lookupScore collaborative_scores c.name
    let combined := weights_semantic * ss + weights_ml_prediction * ms +
      weights_collaborative * cs
    { course := c, score := combined, strategy := "hybrid",
      details := .breakdown ss ms cs combined }

/-- Model of `RecommendationEngine._hybrid_recommendations`: weighted
combination, then stable sort descending by combined score. -/
def hybrid_recommendations (courses : List Course) (simf : Course → Course → ℚ)
    (predict : Student → String → Except Unit (Option ℚ))
    (s : Student) (available : List Course) : List ScoreRec :=
  sortByDesc ScoreRec.score (hybridScored courses simf predict s available)

/-- Round-half-to-even to an integer, the rounding mode of Python's built-in
`round`. -/
def roundHalfEven (q : ℚ) : ℤ :=
  if q - (⌊q⌋ : ℚ) < 1/2 then ⌊q⌋
  else if 1/2 < q - (⌊q⌋ : ℚ) then ⌊q⌋ + 1
  else if ⌊q⌋ % 2 = 0 then ⌊q⌋ else ⌊q⌋ + 1

/-- Python's `round(q, 2)`. -/
def round2 (q : ℚ) : ℚ := (roundHalfEven (q * 100) : ℚ) / 100

/-- Model of `RecommendationEngine._calculate_confidence`:
`round(max(0.1, min(0.95, score * 1.2)), 2)`. -/
def calculate_confidence (score : ℚ) : ℚ :=
  round2 (max (1/10) (min (19/20) (score * (6/5))))

/-- The per-recommendation metadata step of `recommend`: attach the
confidence value (the `reasoning` string is not modelled). -/
def attach_confidence (r : ScoreRec) : FinalRec :=
  { course := r.course, score := r.score, strategy := r.strategy,
    details := r.details, confidence := calculate_confidence r.score }

/-- Model of `RecommendationEngine.recommend`: filter eligible candidates,
dispatch on the strategy string (anything other than `'semantic'`, `'ml'`,
`'collaborative'` falls through to hybrid), attach confidence, truncate to
`num_recommendations`. -/
def recommend (courses : List Course) (simf : Course → Course → ℚ)
    (predict : Student → String → Except Unit (Option ℚ))
    (s : Student) (num_recommendations : Nat := 5)
    (strategy : String := "hybrid") : List FinalRec :=
  let available := get_available_courses courses s
  if available.isEmpty then []
  else
    let recs :=
      if strategy == "semantic" then semantic_recommendations courses simf s available
      else if strategy == "ml" then ml_recommendations predict s available
      else if strategy == "collaborative" then collaborative_recommendations s available
      else hybrid_recommendations courses simf predict s available
    (recs.map attach_confidence).take num_recommendations

/-!  Embedding of `src/ai/embeddings_manager.py`.  Vectors are lists of real
numbers (numpy float arrays); the cosine routine divides by `np.linalg.norm`,
i.e. square roots, hence `ℝ` rather than `ℚ` here. -/

/-- Dot product `np.dot(vec1, vec2)` of two vectors. -/
def dotList (a b : List ℝ) : ℝ := (List.zipWith (fun x y => x * y) a b).sum

/-- Euclidean norm `np.linalg.norm(vec)`. -/
noncomputable def normList (a : List ℝ) : ℝ := Real.sqrt (dotList a a)

/-- Model of `EmbeddingsManager.cosine_similarity`: return `0.0` when either
norm is zero, otherwise the cosine clamped into `[0, 1]` by
`max(0.0, min(1.0, similarity))`. -/
noncomputable def cosine_similarity (a b : List ℝ) : ℝ :=
  if normList a = 0 ∨ normList b = 0 then 0
  else max 0 (min 1 (dotList a b / (normList a * normList b)))

/-- Python's `str.strip()`: drop leading and trailing whitespace. -/
def strip (s : String) : String :=
  String.mk (((s.toList.dropWhile Char.isWhitespace).reverse.dropWhile
    Char.isWhitespace).reverse)

/-- The exceptions surfaced by `EmbeddingsManager.get_embedding`: the
`ValueError("Text cannot be empty")` guard, and a re-raised provider
exception. -/
inductive EmbedErr where
  | valueError (msg : String)
  | providerError
deriving DecidableEq, Repr

/-- Lookup in the embeddings cache dict (`cache_key in self.embeddings_cache`
followed by indexing). -/
def lookupCache (cache : List (String × List ℝ)) (key : String) :
    Option (List ℝ) :=
  (cache.find? fun p => p.1 == key).map Prod.snd

/-- Model of `EmbeddingsManager.get_embedding`.  The OpenAI call
`self.client.embeddings.create(...)` is the parameter `provider`
(`Except.error` models a raised provider exception, re-raised by the source
after logging).  Returns the embedding together with the possibly-updated
cache; the cache dict update `self.embeddings_cache[cache_key] = embedding`
is modelled by consing the new binding in front (first match wins in
`lookupCache`), and the `_save_cache` disk write is not modelled. -/
def get_embedding (provider : String → Except Unit (List ℝ))
    (cache : List (String × List ℝ)) (text : String) (use_cache : Bool) :
    Except EmbedErr (List ℝ × List (String × List ℝ)) :=
  if text = "" ∨ strip text = "" then .error (.valueError "Text cannot be empty")
  else
    let cache_key := String.mk ((strip text).toList.take 100)
    match (if use_cache then lookupCache cache cache_key else none) with
    | some v => .ok (v, cache)
    | none =>
      match provider text with
      | .ok emb => .ok (emb, (cache_key, emb) :: cache)
      | .error _ => .error .providerError

/-!  Auxiliary order on identifiers, and concrete inputs used to instantiate
the claim theorems. -/

/-- Code-point lexicographic order on character lists, Python's `<` on
strings. -/
def charListLt : List Char → List Char → Bool
  | [], [] => false
  | [], _ :: _ => true
  | _ :: _, [] => false
  | a :: as, b :: bs => if a < b then true else if b < a then false else charListLt as bs

/-- Python's `<` on course-name strings (code-point lexicographic). -/
def nameLt (a b : String) : Bool := charListLt a.toList b.toList

/-- A similarity oracle that scores every pair 0, for concrete instantiations. -/
def simf0 : Course → Course → ℚ := fun _ _ => 0

/-- A predictive collaborator that always returns a dict without
`predicted_grade` (so the 70.0 default applies). -/
def predict_ok_none : Student → String → Except Unit (Option ℚ) := fun _ _ => .ok none

/-- A predictive collaborator that always raises. -/
def predict_fail : Student → String → Except Unit (Option ℚ) := fun _ _ => .error ()

/-- A predictive collaborator tuned so that the two eligible cold-start
courses receive the same blended hybrid score. -/
def tie_predict : Student → String → Except Unit (Option ℚ) := fun _ name =>
  if name == "Python Fundamentals" then .ok (some 0) else .ok (some (240/7))

/-- A brand-new student: nothing completed, nothing enrolled. -/
def fresh_student : Student := { completed_courses := [], enrolled_courses := [] }

/-- A student who has completed exactly Python Fundamentals. -/
def pf_student : Student :=
  { completed_courses := ["Python Fundamentals"], enrolled_courses := [] }

/-- The first hybrid recommendation produced for `pf_student` with the zero
similarity oracle and the defaulting predictor (all five available courses
blend to 0.4·0 + 0.35·0.7 + 0.25·0.5 = 0.37, confidence rounds to 0.44). -/
def w1_rec : FinalRec :=
  { course := advanced_python, score := 37/100, strategy := "hybrid",
    details := .breakdown 0 (7/10) (1/2) (37/100), confidence := 11/25 }

/-- The single hybrid score record for `pf_student` over the one-course pool
`[advanced_python]`. -/
def w2_rec : ScoreRec :=
  { course := advanced_python, score := 37/100, strategy := "hybrid",
    details := .breakdown 0 (7/10) (1/2) (37/100) }

/-- The ML score record produced when the collaborator raises. -/
def w7_rec : ScoreRec :=
  { course := python_fundamentals, score := 1/2, strategy := "ml_prediction",
    details := .text "Prediction unavailable" }

/-- The collaborative score record for the fresh student and Python
Fundamentals. -/
def w9_rec : ScoreRec :=
  { course := python_fundamentals, score := 1/2, strategy := "collaborative",
    details := .text "No similar students found" }

/-- An always-failing embedding provider, for concrete instantiations. -/
def provider0 : String → Except Unit (List ℝ) := fun _ => .error ()

/-!  General lemmas about the stable descending sort. -/

theorem mem_insertByDesc {key : α → ℚ} {a x : α} {l : List α} :
    x ∈ insertByDesc key a l ↔ x = a ∨ x ∈ l := by
  induction l with
  | nil => simp [insertByDesc]
  | cons b t ih =>
    rw [insertByDesc]
    by_cases hba : key b ≤ key a
    · rw [if_pos hba]; simp
    · rw [if_neg hba]
      simp only [List.mem_cons, ih]
      tauto

theorem mem_sortByDesc {key : α → ℚ} {x : α} {l : List α} :
    x ∈ sortByDesc key l ↔ x ∈ l := by
  induction l with
  | nil => exact Iff.rfl
  | cons a t ih =>
    rw [sortByDesc, mem_insertByDesc, ih, List.mem_cons]

theorem length_insertByDesc {key : α → ℚ} (a : α) (l : List α) :
    (insertByDesc key a l).length = l.length + 1 := by
  induction l with
  | nil => rfl
  | cons b t ih =>
    rw [insertByDesc]
    by_cases hba : key b ≤ key a
    · rw [if_pos hba]; rfl
    · rw [if_neg hba]
      simp [ih]

theorem length_sortByDesc {key : α → ℚ} (l : List α) :
    (sortByDesc key l).length = l.length := by
  induction l with
  | nil => rfl
  | cons a t ih => rw [sortByDesc, length_insertByDesc, ih, List.length_cons]

theorem pairwise_insertByDesc {key : α → ℚ} {a : α} {l : List α}
    (h : l.Pairwise fun x y => key y ≤ key x) :
    (insertByDesc key a l).Pairwise fun x y => key y ≤ key x := by
  induction l with
  | nil => simp [insertByDesc]
  | cons b t ih =>
    rw [List.pairwise_cons] at h
    obtain ⟨hb, ht⟩ := h
    rw [insertByDesc]
    by_cases hba : key b ≤ key a
    · rw [if_pos hba]
      refine List.Pairwise.cons ?_ (List.Pairwise.cons hb ht)
      intro y hy
      rcases List.mem_cons.mp hy with rfl | hy
      · exact hba
      · exact le_trans (hb y hy) hba
    · rw [if_neg hba]
      refine List.Pairwise.cons ?_ (ih ht)
      intro y hy
      rcases mem_insertByDesc.mp hy with rfl | hy
      · exact le_of_lt (lt_of_not_le hba)
      · exact hb y hy

theorem pairwise_sortByDesc {key : α → ℚ} (l : List α) :
    (sortByDesc key l).Pairwise fun x y => key y ≤ key x := by
  induction l with
  | nil => exact List.Pairwise.nil
  | cons a t ih => exact pairwise_insertByDesc ih

theorem pairwise_of_forall_rel {R : α → α → Prop} (h : ∀ x y, R x y) :
    ∀ l : List α, l.Pairwise R
  | [] => List.Pairwise.nil
  | a :: t => List.Pairwise.cons (fun y _ => h a y) (pairwise_of_forall_rel h t)

theorem filter_insertByDesc_of_ne {key : α → ℚ} {a : α} {q : ℚ}
    (h : key a ≠ q) (l : List α) :
    (insertByDesc key a l).filter (fun x => decide (key x = q)) =
      l.filter fun x => decide (key x = q) := by
  induction l with
  | nil => simp [insertByDesc, h]
  | cons b t ih =>
    rw [insertByDesc]
    by_cases hba : key b ≤ key a
    · rw [if_pos hba]
      simp [List.filter_cons, h]
    · rw [if_neg hba]
      simp only [List.filter_cons, ih]

theorem filter_insertByDesc_self {key : α → ℚ} (a : α) (l : List α) :
    (insertByDesc key a l).filter (fun x => decide (key x = key a)) =
      a :: l.filter fun x => decide (key x = key a) := by
  induction l with
  | nil => simp [insertByDesc]
  | cons b t ih =>
    rw [insertByDesc]
    by_cases hba : key b ≤ key a
    · rw [if_pos hba]
      simp [List.filter_cons]
    · have hbq : key b ≠ key a := fun hc => hba (le_of_eq hc)
      rw [if_neg hba]
      simp only [List.filter_cons, ih]
      simp [hbq]

theorem filter_sortByDesc {key : α → ℚ} (q : ℚ) (l : List α) :
    (sortByDesc key l).filter (fun x => decide (key x = q)) =
      l.filter fun x => decide (key x = q) := by
  induction l with
  | nil => rfl
  | cons a t ih =>
    rw [sortByDesc]
    by_cases h : key a = q
    · subst h
      rw [filter_insertByDesc_self, ih, List.filter_cons]
      simp
    · rw [filter_insertByDesc_of_ne h, ih, List.filter_cons]
      simp [h]

theorem exists_of_mem_sortByDesc_map {key : β → ℚ} {f : α → β} {l : List α}
    {r : β} (h : r ∈ sortByDesc key (l.map f)) : ∃ c ∈ l, f c = r :=
  List.mem_map.mp (mem_sortByDesc.mp h)

/-!  Structural lemmas about the individual scoring strategies. -/

theorem mem_get_available_courses {courses : List Course} {s : Student}
    {c : Course} :
    c ∈ get_available_courses courses s ↔ c ∈ courses ∧ eligible s c := by
  simp [get_available_courses, List.mem_filter]

theorem exists_of_mem_semantic {courses : List Course}
    {simf : Course → Course → ℚ} {s : Student} {available : List Course}
    {r : ScoreRec} (h : r ∈ semantic_recommendations courses simf s available) :
    ∃ c ∈ available, r.course = c := by
  unfold semantic_recommendations at h
  by_cases hc : s.completed_courses.isEmpty
  · rw [if_pos hc] at h
    obtain ⟨c, hcm, rfl⟩ := exists_of_mem_sortByDesc_map h
    exact ⟨c, hcm, rfl⟩
  · rw [if_neg hc] at h
    obtain ⟨c, hcm, rfl⟩ := exists_of_mem_sortByDesc_map h
    exact ⟨c, hcm, rfl⟩

theorem exists_of_mem_ml {predict : Student → String → Except Unit (Option ℚ)}
    {s : Student} {available : List Course} {r : ScoreRec}
    (h : r ∈ ml_recommendations predict s available) :
    ∃ c ∈ available, r.course = c := by
  unfold ml_recommendations at h
  obtain ⟨c, hcm, hfc⟩ := exists_of_mem_sortByDesc_map h
  refine ⟨c, hcm, ?_⟩
  cases hp : predict s c.name <;> rw [hp] at hfc <;> rw [← hfc]

theorem collaborative_recommendations_eq (s : Student) (available : List Course) :
    collaborative_recommendations s available = available.map fun c =>
      { course := c, score := 1/2, strategy := "collaborative",
        details := .text "No similar students found" } := by
  rfl

theorem exists_of_mem_collaborative {s : Student} {available : List Course}
    {r : ScoreRec} (h : r ∈ collaborative_recommendations s available) :
    ∃ c ∈ available, r.course = c := by
  rw [collaborative_recommendations_eq] at h
  obtain ⟨c, hcm, rfl⟩ := List.mem_map.mp h
  exact ⟨c, hcm, rfl⟩

theorem exists_of_mem_hybrid {courses : List Course}
    {simf : Course → Course → ℚ}
    {predict : Student → String → Except Unit (Option ℚ)}
    {s : Student} {available : List Course} {r : ScoreRec}
    (h : r ∈ hybrid_recommendations courses simf predict s available) :
    ∃ c ∈ available, r.course = c := by
  unfold hybrid_recommendations hybridScored at h
  obtain ⟨c, hcm, rfl⟩ := exists_of_mem_sortByDesc_map h
  exact ⟨c, hcm, rfl⟩

theorem exists_of_mem_recommend {courses : List Course}
    {simf : Course → Course → ℚ}
    {predict : Student → String → Except Unit (Option ℚ)}
    {s : Student} {n : Nat} {strat : String} {r : FinalRec}
    (h : r ∈ recommend courses simf predict s n strat) :
    ∃ c ∈ get_available_courses courses s, r.course = c := by
  unfold recommend at h
  by_cases he : (get_available_courses courses s).isEmpty
  · rw [if_pos he] at h
    exact absurd h (List.not_mem_nil r)
  · rw [if_neg he] at h
    have h' := List.mem_of_mem_take h
    obtain ⟨rec, hrec, hattach⟩ := List.mem_map.mp h'
    have hcourse : r.course = rec.course := by
      rw [← hattach]; rfl
    rw [hcourse]
    by_cases h1 : strat == "semantic"
    · rw [if_pos h1] at hrec
      exact exists_of_mem_semantic hrec
    · rw [if_neg h1] at hrec
      by_cases h2 : strat == "ml"
      · rw [if_pos h2] at hrec
        exact exists_of_mem_ml hrec
      · rw [if_neg h2] at hrec
        by_cases h3 : strat == "collaborative"
        · rw [if_pos h3] at hrec
          exact exists_of_mem_collaborative hrec
        · rw [if_neg h3] at hrec
          exact exists_of_mem_hybrid hrec

section RatKernelReduction

attribute [local semireducible] Rat.add Rat.mul Rat.inv Rat.sub Rat.ofScientific

/-- C1: for every student and every list returned by `recommend` (any
strategy, any similarity oracle and predictive collaborator), no returned
recommendation's course name is in the student's completed or enrolled
course sets, and every returned course's prerequisites are a subset of the
student's completed courses. -/
theorem recommend_eligibility (simf : Course → Course → ℚ)
    (predict : Student → String → Except Unit (Option ℚ))
    (s : Student) (n : Nat) (strat : String) (r : FinalRec)
    (hr : r ∈ recommend load_courses simf predict s n strat) :
    r.course.name ∉ s.completed_courses ∧ r.course.name ∉ s.enrolled_courses ∧
    ∀ p ∈ r.course.prerequisites, p ∈ s.completed_courses := by
  obtain ⟨c, hc, hcourse⟩ := exists_of_mem_recommend hr
  obtain ⟨-, hnot, hpre⟩ := mem_get_available_courses.mp hc
  rw [hcourse]
  push_neg at hnot
  exact ⟨hnot.1, hnot.2, hpre⟩

/-- Witness for C1: the first hybrid recommendation for the student who
completed Python Fundamentals is not among that student's completed
courses. -/
theorem recommend_eligibility_witness :
    w1_rec.course.name ∉ pf_student.completed_courses :=
  (recommend_eligibility simf0 predict_ok_none pf_student 5 "hybrid" w1_rec
    (by decide)).1

/-- C2: every hybrid score record's blended score equals
0.40 × semantic + 0.35 × predictive + 0.25 × collaborative, where each
per-strategy score is looked up in that strategy's output with default 0.0
for a missing item (no renormalization), and the three default weights sum
to exactly 1. -/
theorem hybrid_blend_formula (simf : Course → Course → ℚ)
    (predict : Student → String → Except Unit (Option ℚ))
    (s : Student) (available : List Course) (r : ScoreRec)
    (hr : r ∈ hybrid_recommendations load_courses simf predict s available) :
    (r.score =
      weights_semantic *
        lookupScore (semantic_recommendations load_courses simf s available)
          r.course.name +
      weights_ml_prediction *
        lookupScore (ml_recommendations predict s available) r.course.name +
      weights_collaborative *
        lookupScore (collaborative_recommendations s available) r.course.name) ∧
    weights_semantic + weights_ml_prediction + weights_collaborative = 1 := by
  constructor
  · unfold hybrid_recommendations hybridScored at hr
    obtain ⟨c, -, rfl⟩ := exists_of_mem_sortByDesc_map hr
    rfl
  · decide

/-- Witness for C2: the single hybrid record over the pool
`[advanced_python]` satisfies the blend formula. -/
theorem hybrid_blend_formula_witness :
    w2_rec.score =
      weights_semantic *
        lookupScore
          (semantic_recommendations load_courses simf0 pf_student [advanced_python])
          w2_rec.course.name +
      weights_ml_prediction *
        lookupScore (ml_recommendations predict_ok_none pf_student [advanced_python])
          w2_rec.course.name +
      weights_collaborative *
        lookupScore (collaborative_recommendations pf_student [advanced_python])
          w2_rec.course.name :=
  (hybrid_blend_formula simf0 predict_ok_none pf_student [advanced_python] w2_rec
    (by decide)).1

/-- C9: the peer-finding step always returns the empty list, so the
collaborative strategy assigns every candidate exactly the neutral score
0.5, for every student input. -/
theorem collaborative_always_neutral (s : Student) (available : List Course) :
    find_similar_students s = [] ∧
    ∀ r ∈ collaborative_recommendations s available, r.score = 1/2 := by
  refine ⟨rfl, ?_⟩
  intro r hr
  rw [collaborative_recommendations_eq] at hr
  obtain ⟨c, -, rfl⟩ := List.mem_map.mp hr
  rfl

/-- Witness for C9: the collaborative record for the fresh student over
`[python_fundamentals]` scores one half. -/
theorem collaborative_always_neutral_witness : w9_rec.score = 1/2 :=
  (collaborative_always_neutral fresh_student [python_fundamentals]).2 w9_rec
    (by decide)

/-!  Sortedness of every strategy's output. -/

theorem pairwise_semantic (courses : List Course) (simf : Course → Course → ℚ)
    (s : Student) (available : List Course) :
    (semantic_recommendations courses simf s available).Pairwise
      fun x y => y.score ≤ x.score := by
  unfold semantic_recommendations
  by_cases hc : s.completed_courses.isEmpty
  · rw [if_pos hc]; exact pairwise_sortByDesc _
  · rw [if_neg hc]; exact pairwise_sortByDesc _

theorem pairwise_ml (predict : Student → String → Except Unit (Option ℚ))
    (s : Student) (available : List Course) :
    (ml_recommendations predict s available).Pairwise
      fun x y => y.score ≤ x.score :=
  pairwise_sortByDesc _

theorem pairwise_collaborative (s : Student) (available : List Course) :
    (collaborative_recommendations s available).Pairwise
      fun x y => y.score ≤ x.score := by
  rw [collaborative_recommendations_eq]
  rw [List.pairwise_map]
  exact pairwise_of_forall_rel (fun _ _ => le_refl _) available

theorem pairwise_hybrid (courses : List Course) (simf : Course → Course → ℚ)
    (predict : Student → String → Except Unit (Option ℚ))
    (s : Student) (available : List Course) :
    (hybrid_recommendations courses simf predict s available).Pairwise
      fun x y => y.score ≤ x.score :=
  pairwise_sortByDesc _

/-- C3 counterexample: with a fresh student the only eligible courses are
Python Fundamentals and Math for Machine Learning; a predictive collaborator
tuned to make both blended scores equal (21/40) exposes the tie-break:
the output keeps catalog order, with "Python Fundamentals" first even though
"Math for Machine Learning" is the smaller identifier — so ties are NOT
broken by item identifier ascending. -/
theorem recommend_tiebreak_counterexample :
    ((recommend load_courses simf0 tie_predict fresh_student 5 "hybrid").map
      fun r => (r.course.name, r.score)) =
      [("Python Fundamentals", 21/40), ("Math for Machine Learning", 21/40)] ∧
    nameLt "Math for Machine Learning" "Python Fundamentals" = true := by
  decide

/-- C3 amended: `recommend` orders its output descending by blended score;
ties keep the candidates' original catalog order (Python's sort is stable),
not item-identifier-ascending order.  The second conjunct is the stability
law: for every score value, the records carrying that score appear in the
sorted hybrid output in exactly the order the blending loop produced them.
Determinism of two identical calls holds because the output is a pure
function of actor, catalog and collaborators. -/
theorem recommend_sorted_descending (courses : List Course)
    (simf : Course → Course → ℚ)
    (predict : Student → String → Except Unit (Option ℚ))
    (s : Student) (n : Nat) (strat : String) :
    ((recommend courses simf predict s n strat).Pairwise
      fun a b => b.score ≤ a.score) ∧
    ∀ (available : List Course) (q : ℚ),
      (hybrid_recommendations courses simf predict s available).filter
        (fun r => decide (r.score = q)) =
      (hybridScored courses simf predict s available).filter
        fun r => decide (r.score = q) := by
  constructor
  · unfold recommend
    by_cases he : (get_available_courses courses s).isEmpty
    · rw [if_pos he]
      exact List.Pairwise.nil
    · rw [if_neg he]
      apply List.Pairwise.sublist (List.take_sublist _ _)
      rw [List.pairwise_map]
      by_cases h1 : strat == "semantic"
      · rw [if_pos h1]
        exact pairwise_semantic courses simf s _
      · rw [if_neg h1]
        by_cases h2 : strat == "ml"
        · rw [if_pos h2]
          exact pairwise_ml predict s _
        · rw [if_neg h2]
          by_cases h3 : strat == "collaborative"
          · rw [if_pos h3]
            exact pairwise_collaborative s _
          · rw [if_neg h3]
            exact pairwise_hybrid courses simf predict s _
  · intro available q
    exact filter_sortByDesc q _

/-- C8: for a student with zero completed courses, the semantic strategy
assigns each eligible candidate a score determined purely by its difficulty
(beginner = 1, intermediate = 0.7, advanced = 0.4), every candidate appears,
and the output is ranked descending by that score. -/
theorem semantic_cold_start (courses : List Course)
    (simf : Course → Course → ℚ) (s : Student) (available : List Course)
    (h : s.completed_courses = []) :
    (∀ c ∈ available, ∃ r ∈ semantic_recommendations courses simf s available,
        r.course = c ∧ r.score = difficulty_score c.difficulty) ∧
    (∀ r ∈ semantic_recommendations courses simf s available,
        r.score = difficulty_score r.course.difficulty) ∧
    difficulty_score "beginner" = 1 ∧ difficulty_score "intermediate" = 7/10 ∧
    difficulty_score "advanced" = 2/5 ∧
    ((semantic_recommendations courses simf s available).Pairwise
      fun x y => y.score ≤ x.score) := by
  have hc : s.completed_courses.isEmpty = true := by rw [h]; rfl
  refine ⟨?_, ?_, by decide, by decide, by decide,
    pairwise_semantic courses simf s available⟩
  · intro c hcm
    refine ⟨⟨c, difficulty_score c.difficulty, "semantic",
      .text "Beginner-friendly course"⟩, ?_, rfl, rfl⟩
    unfold semantic_recommendations
    rw [if_pos hc, mem_sortByDesc]
    exact List.mem_map.mpr ⟨c, hcm, rfl⟩
  · intro r hr
    unfold semantic_recommendations at hr
    rw [if_pos hc] at hr
    obtain ⟨c, -, rfl⟩ := exists_of_mem_sortByDesc_map hr
    rfl

/-- Witness for C8: instantiated for the fresh student with the full
catalog's eligible pool, the cold-start difficulty table gives beginner
courses score 1. -/
theorem semantic_cold_start_witness : difficulty_score "beginner" = 1 :=
  (semantic_cold_start load_courses simf0 fresh_student
    (get_available_courses load_courses fresh_student) rfl).2.2.1

/-!  The `recommend` pipeline for the `'ml'` strategy, and predictive
failure handling. -/

theorem recommend_ml_eq (courses : List Course) (simf : Course → Course → ℚ)
    (predict : Student → String → Except Unit (Option ℚ)) (s : Student)
    (n : Nat) :
    recommend courses simf predict s n "ml" =
      ((ml_recommendations predict s (get_available_courses courses s)).map
        attach_confidence).take n := by
  unfold recommend
  by_cases he : (get_available_courses courses s).isEmpty
  · rw [if_pos he]
    have h0 : get_available_courses courses s = [] := by
      rwa [List.isEmpty_iff] at he
    rw [h0]
    unfold ml_recommendations
    simp [sortByDesc]
  · rw [if_neg he]
    rfl

/-- C7 amended: if the predictive collaborator raises for a candidate, the
predictive scorer assigns that candidate exactly the neutral score 0.5 with
the note "Prediction unavailable" (capital P in the source); the error never
propagates: the whole `'ml'` recommendation request still returns its full
list (of length `min n |available|`) for every collaborator. -/
theorem ml_failure_neutral (courses : List Course)
    (simf : Course → Course → ℚ)
    (predict : Student → String → Except Unit (Option ℚ)) (s : Student)
    (n : Nat) :
    (∀ r ∈ ml_recommendations predict s (get_available_courses courses s),
        predict s r.course.name = .error () →
        r.score = 1/2 ∧ r.details = .text "Prediction unavailable") ∧
    (recommend courses simf predict s n "ml").length =
      min n (get_available_courses courses s).length := by
  constructor
  · intro r hr hfail
    unfold ml_recommendations at hr
    obtain ⟨c, -, hfc⟩ := exists_of_mem_sortByDesc_map hr
    cases hp : predict s c.name with
    | ok g =>
      rw [hp] at hfc
      have hname : r.course.name = c.name := by rw [← hfc]
      rw [hname, hp] at hfail
      exact absurd hfail (by simp)
    | error e =>
      rw [hp] at hfc
      rw [← hfc]
      exact ⟨rfl, rfl⟩
  · rw [recommend_ml_eq, List.length_take, List.length_map]
    unfold ml_recommendations
    rw [length_sortByDesc, List.length_map]

/-- Witness for C7: for the always-raising collaborator, the sole ML record
over the one-course catalog scores one half and carries the source's note. -/
theorem ml_failure_neutral_witness :
    w7_rec.score = 1/2 ∧ w7_rec.details = .text "Prediction unavailable" :=
  (ml_failure_neutral [python_fundamentals] simf0 predict_fail fresh_student
    5).1 w7_rec (by decide) rfl

/-- C7 counterexample: the note attached on predictive failure is the string
"Prediction unavailable" (capital P), not "prediction unavailable" as
claimed. -/
theorem ml_note_counterexample :
    ml_recommendations predict_fail fresh_student [python_fundamentals] =
      [w7_rec] ∧
    w7_rec.details = .text "Prediction unavailable" ∧
    Details.text "Prediction unavailable" ≠
      Details.text "prediction unavailable" := by
  decide

/-!  Rounding bounds for the confidence value. -/

theorem le_roundHalfEven {q : ℚ} {n : ℤ} (h : (n : ℚ) ≤ q) :
    n ≤ roundHalfEven q := by
  have hfl : n ≤ ⌊q⌋ := Int.le_floor.mpr h
  unfold roundHalfEven
  split_ifs <;> omega

theorem roundHalfEven_le {q : ℚ} {n : ℤ} (h : q ≤ (n : ℚ)) :
    roundHalfEven q ≤ n := by
  have hfl : ⌊q⌋ ≤ n := by
    have h2 := Int.floor_le_floor h
    rwa [Int.floor_intCast] at h2
  unfold roundHalfEven
  split_ifs with h1 h2 h3
  · exact hfl
  · have hlt : (⌊q⌋ : ℚ) < (n : ℚ) := by
      have hq := Int.floor_le q
      linarith
    have : ⌊q⌋ < n := by exact_mod_cast hlt
    omega
  · exact hfl
  · have heq : q - (⌊q⌋ : ℚ) = 1/2 := le_antisymm (not_lt.mp h2) (not_lt.mp h1)
    have hlt : (⌊q⌋ : ℚ) < (n : ℚ) := by linarith
    have : ⌊q⌋ < n := by exact_mod_cast hlt
    omega

/-- C4 counterexample: for blended score 0.33 the code's confidence is
`round(0.396, 2) = 0.4`, not the claimed un-rounded `min(0.95, 0.33 × 1.2) =
0.396`. -/
theorem confidence_rounding_counterexample :
    calculate_confidence (33/100) = 2/5 ∧
    max (1/10) (min (19/20) ((33/100) * (6/5))) = 99/250 ∧
    (2/5 : ℚ) ≠ 99/250 := by
  decide

/-- C4 amended: the attached confidence equals `min(0.95, s × 1.2)` floored
at 0.1 and then rounded to two decimal places (Python `round(x, 2)`), and it
always lies within [0.1, 0.95]; in particular confidence is 0.1 at s = 0 and
0.95 at s = 1. -/
theorem calculate_confidence_spec (score : ℚ) :
    calculate_confidence score =
      round2 (max (1/10) (min (19/20) (score * (6/5)))) ∧
    1/10 ≤ calculate_confidence score ∧ calculate_confidence score ≤ 19/20 ∧
    calculate_confidence 0 = 1/10 ∧ calculate_confidence 1 = 19/20 := by
  have h1 : (1/10 : ℚ) ≤ max (1/10) (min (19/20) (score * (6/5))) :=
    le_max_left _ _
  have h2 : max (1/10) (min (19/20) (score * (6/5))) ≤ 19/20 :=
    max_le (by norm_num) (min_le_left _ _)
  have hlo : ((10 : ℤ) : ℚ) ≤ max (1/10) (min (19/20) (score * (6/5))) * 100 := by
    push_cast
    linarith
  have hhi : max (1/10) (min (19/20) (score * (6/5))) * 100 ≤ ((95 : ℤ) : ℚ) := by
    push_cast
    linarith
  have hrlo := le_roundHalfEven hlo
  have hrhi := roundHalfEven_le hhi
  have hclo : ((10 : ℤ) : ℚ) ≤
      ((roundHalfEven (max (1/10) (min (19/20) (score * (6/5))) * 100) : ℤ) : ℚ) := by
    exact_mod_cast hrlo
  have hchi : ((roundHalfEven (max (1/10) (min (19/20) (score * (6/5))) * 100) : ℤ) : ℚ) ≤
      ((95 : ℤ) : ℚ) := by
    exact_mod_cast hrhi
  refine ⟨rfl, ?_, ?_, by decide, by decide⟩
  · unfold calculate_confidence round2
    push_cast at hclo
    linarith
  · unfold calculate_confidence round2
    push_cast at hchi
    linarith

end RatKernelReduction

/-!  Cosine-similarity lemmas (real arithmetic). -/

theorem zipWith_mul_comm (a b : List ℝ) :
    List.zipWith (fun x y => x * y) a b = List.zipWith (fun x y => x * y) b a := by
  induction a generalizing b with
  | nil => cases b <;> rfl
  | cons x xs ih =>
    cases b with
    | nil => rfl
    | cons y ys =>
      simp only [List.zipWith_cons_cons]
      rw [mul_comm, ih]

theorem dotList_comm (a b : List ℝ) : dotList a b = dotList b a := by
  unfold dotList
  rw [zipWith_mul_comm]

theorem dotList_self_nonneg (a : List ℝ) : 0 ≤ dotList a a := by
  unfold dotList
  induction a with
  | nil => simp
  | cons x xs ih =>
    rw [List.zipWith_cons_cons, List.sum_cons]
    exact add_nonneg (mul_self_nonneg x) ih

theorem dotList_self_pos {a : List ℝ} (h : ∃ x ∈ a, x ≠ 0) :
    0 < dotList a a := by
  induction a with
  | nil =>
    obtain ⟨x, hx, -⟩ := h
    exact absurd hx (List.not_mem_nil x)
  | cons y ys ih =>
    have hstep : dotList (y :: ys) (y :: ys) = y * y + dotList ys ys := by
      unfold dotList
      rw [List.zipWith_cons_cons, List.sum_cons]
    rw [hstep]
    obtain ⟨x, hx, hx0⟩ := h
    rcases List.mem_cons.mp hx with rfl | hmem
    · exact add_pos_of_pos_of_nonneg (mul_self_pos.mpr hx0) (dotList_self_nonneg ys)
    · exact add_pos_of_nonneg_of_pos (mul_self_nonneg y) (ih ⟨x, hmem, hx0⟩)

theorem normList_mul_self (a : List ℝ) : normList a * normList a = dotList a a :=
  Real.mul_self_sqrt (dotList_self_nonneg a)

theorem normList_pos {a : List ℝ} (h : ∃ x ∈ a, x ≠ 0) : 0 < normList a :=
  Real.sqrt_pos.mpr (dotList_self_pos h)

/-- C5: for all vectors `a` and `b`, `cosine_similarity a b` lies in [0, 1]
(negative cosines are floored to 0 by the clamp), and whenever either vector
has zero magnitude the result is exactly 0 — the division by the norms is
reached only under the guard that both norms are nonzero. -/
theorem cosine_similarity_range (a b : List ℝ) :
    (0 ≤ cosine_similarity a b ∧ cosine_similarity a b ≤ 1) ∧
    (normList a = 0 ∨ normList b = 0 → cosine_similarity a b = 0) := by
  unfold cosine_similarity
  by_cases h : normList a = 0 ∨ normList b = 0
  · rw [if_pos h]
    exact ⟨⟨le_refl 0, zero_le_one⟩, fun _ => rfl⟩
  · rw [if_neg h]
    exact ⟨⟨le_max_left _ _, max_le zero_le_one (min_le_left _ _)⟩,
      fun hc => absurd hc h⟩

/-- Witness for C5: the zero vector against (3, 4) yields similarity 0. -/
theorem cosine_similarity_range_witness :
    cosine_similarity [0, 0] [3, 4] = 0 :=
  (cosine_similarity_range [0, 0] [3, 4]).2
    (Or.inl (by simp [normList, dotList]))

/-- C6: cosine similarity is symmetric in its two arguments, and for every
vector with some nonzero component the self-similarity is exactly 1 after
clamping. -/
theorem cosine_similarity_symm_self (a b : List ℝ) :
    cosine_similarity a b = cosine_similarity b a ∧
    ((∃ x ∈ a, x ≠ 0) → cosine_similarity a a = 1) := by
  constructor
  · unfold cosine_similarity
    by_cases h : normList a = 0 ∨ normList b = 0
    · rw [if_pos h, if_pos h.symm]
    · rw [if_neg h, if_neg fun hc => h hc.symm]
      rw [dotList_comm, mul_comm]
  · intro hx
    have hpos : 0 < normList a := normList_pos hx
    have hne : ¬ (normList a = 0 ∨ normList a = 0) := by
      rw [or_self]
      exact ne_of_gt hpos
    unfold cosine_similarity
    rw [if_neg hne, normList_mul_self]
    rw [div_self (ne_of_gt (dotList_self_pos hx)), min_self]
    exact max_eq_right zero_le_one

/-- Witness for C6: the vector (3, 4) has self-similarity exactly 1. -/
theorem cosine_similarity_symm_self_witness :
    cosine_similarity [3, 4] [3, 4] = 1 :=
  (cosine_similarity_symm_self [3, 4] [3, 4]).2 ⟨3, by simp, by simp⟩

/-- C10: `get_embedding` fails with `ValueError("Text cannot be empty")` for
every empty or whitespace-only input text; the result is the same for every
cache state and every provider, i.e. the guard fires before any cache lookup
or provider call. -/
theorem get_embedding_empty_raises (provider : String → Except Unit (List ℝ))
    (cache : List (String × List ℝ)) (text : String) (use_cache : Bool)
    (h : text = "" ∨ strip text = "") :
    get_embedding provider cache text use_cache =
      .error (.valueError "Text cannot be empty") := by
  unfold get_embedding
  rw [if_pos h]

/-- Witness for C10: three spaces strip to the empty string and raise, even
with caching on and a failing provider. -/
theorem get_embedding_empty_raises_witness :
    get_embedding provider0 [] "   " true =
      Except.error (EmbedErr.valueError "Text cannot be empty") :=
  get_embedding_empty_raises provider0 [] "   " true (Or.inr (by decide))

end StudentPortal
